import Mathlib

/-!
# Verification of the airport ride-pooling matching core

A shallow embedding of the matching/allocation engine of the airport
pooling backend: the pooling service (`findExistingRide`, `isPathValid`,
`createNewRide`, `addBookingToRide`, `matchRide`), the booking controller
(`createBooking` validation, `cancelBooking`), the geo path-length helper
and the pricing formula, together with theorems about the documented
invariants and behaviours.

The persistent store is modelled as an explicit record of driver, ride and
booking rows; Prisma's `updateMany`-with-`where` is an atomic conditional
update returning the changed-row count, `$transaction` blocks commit all
their writes together or not at all (a failing statement rolls the block
back), and `update where id` on a missing row aborts the surrounding
transaction.

`calculateDistance` (the haversine formula on IEEE doubles) is
transcendental and has no exact executable embedding, so the whole
development is parametric in the point-to-point distance function
`dist : Point → Point → ℚ`; every downstream definition is translated
from the source with `dist` in place of `calculateDistance`.  Concrete
instantiations of `dist` are only used to build witnesses.
-/

set_option maxHeartbeats 1000000

namespace AirportPooling

/-- A geographic point as it appears in JSON request bodies and stored rows
(interface `Point` in the geo utilities).  At the JavaScript runtime a field
may be missing (`undefined`), so each coordinate is an optional rational;
numbers are modelled as rationals. -/
structure Point where
  lat : Option ℚ
  lng : Option ℚ
deriving DecidableEq, Repr

/-- `calculatePathDistance` (geo utilities): total length of an ordered stop
sequence, the sum of the point-to-point distance over consecutive pairs;
empty and one-point paths have length 0. -/
def calculatePathDistance (dist : Point → Point → ℚ) : List Point → ℚ
  | p :: q :: rest => dist p q + calculatePathDistance dist (q :: rest)
  | _ => 0

/-- Prisma `DriverStatus`. -/
inductive DriverStatus where
  | AVAILABLE
  | BUSY
deriving DecidableEq, Repr

/-- Prisma `RideStatus`. -/
inductive RideStatus where
  | SCHEDULED
  | COMPLETED
deriving DecidableEq, Repr

/-- Booking status strings used by the controllers and the pooling service. -/
inductive BookingStatus where
  | PENDING
  | CONFIRMED
  | CANCELLED
deriving DecidableEq, Repr

/-- A `Driver` row (a vehicle).  Row ids are modelled as naturals. -/
structure Driver where
  id : ℕ
  capacity : ℕ
  status : DriverStatus
deriving DecidableEq, Repr

/-- A `Ride` row (a trip): assigned driver, status and the ordered stop path
stored as JSON. -/
structure Ride where
  id : ℕ
  driverId : ℕ
  status : RideStatus
  path : List Point
deriving DecidableEq, Repr

/-- A `Booking` row (a passenger request). -/
structure Booking where
  id : ℕ
  userId : ℕ
  pickup : Point
  dropoff : Point
  price : ℚ
  status : BookingStatus
  rideId : Option ℕ
deriving DecidableEq, Repr

/-- The database state: the three row tables plus fresh-id counters for the
rows these operations create. -/
structure DB where
  drivers : List Driver
  rides : List Ride
  bookings : List Booking
  nextRideId : ℕ
  nextBookingId : ℕ
deriving DecidableEq, Repr

/-- `MAX_DEVIATION_PERCENT = 0.5` (pooling service). -/
def MAX_DEVIATION_PERCENT : ℚ := 1/2

/-- `MAX_SEATS = 4` (pooling service). -/
def MAX_SEATS : ℕ := 4

/-- The bookings attached to a ride (Prisma `include: { bookings: true }`:
all booking rows whose `rideId` references the ride). -/
def bookingsOf (s : DB) (rideId : ℕ) : List Booking :=
  s.bookings.filter fun b => decide (b.rideId = some rideId)

/-- Look a driver row up by id. -/
def findDriver (s : DB) (id : ℕ) : Option Driver :=
  s.drivers.find? fun d => decide (d.id = id)

/-- `ride.driver.capacity || MAX_SEATS`: the included driver relation is
total in the schema, so the `none` arm is unreachable in reachable states;
JavaScript `||` replaces a zero capacity with `MAX_SEATS`. -/
def driverCapacity (s : DB) (id : ℕ) : ℕ :=
  match findDriver s id with
  | some d => if d.capacity = 0 then MAX_SEATS else d.capacity
  | none => MAX_SEATS

/-- `isPathValid` (pooling service): append the new pickup and dropoff to the
current path, and admit iff the new total path length is at most
`(1 + MAX_DEVIATION_PERCENT)` times the sum of the direct distances of the
new request and of every attached booking (the source loops over
`ride.bookings` with no status filter). -/
def isPathValid (dist : Point → Point → ℚ) (ride : Ride) (rideBookings : List Booking)
    (newPickup newDropoff : Point) : Bool :=
  let newPath := ride.path ++ [newPickup, newDropoff]
  let newTotalDist := calculatePathDistance dist newPath
  let directDistNew := dist newPickup newDropoff
  let sumDirectDistances :=
    directDistNew + (rideBookings.map fun b => dist b.pickup b.dropoff).sum
  let maxAllowedDist := sumDirectDistances * (1 + MAX_DEVIATION_PERCENT)
  decide (newTotalDist ≤ maxAllowedDist)

/-- The per-ride test of `findExistingRide`'s scan: skip (`continue`) when
`ride.bookings.length >= (ride.driver.capacity || MAX_SEATS)`, otherwise the
deviation check decides. -/
def rideMatchable (dist : Point → Point → ℚ) (s : DB) (pickup dropoff : Point)
    (ride : Ride) : Bool :=
  let rideBookings := bookingsOf s ride.id
  if rideBookings.length ≥ driverCapacity s ride.driverId then false
  else isPathValid dist ride rideBookings pickup dropoff

/-- `findExistingRide` (pooling service): scan the SCHEDULED rides in table
order and return the first one passing the capacity and deviation checks. -/
def findExistingRide (dist : Point → Point → ℚ) (s : DB) (pickup dropoff : Point) :
    Option Ride :=
  (s.rides.filter fun r => decide (r.status = RideStatus.SCHEDULED)).find?
    (rideMatchable dist s pickup dropoff)

/-- `prisma.driver.updateMany({ where: { id, status: AVAILABLE }, data:
{ status: BUSY } })`: one atomic conditional update; the second component is
the changed-row count the store reports. -/
def claimDriver (drivers : List Driver) (id : ℕ) : List Driver × ℕ :=
  ((drivers.map fun d =>
      if d.id = id ∧ d.status = DriverStatus.AVAILABLE
      then { d with status := DriverStatus.BUSY } else d),
   (drivers.filter fun d =>
      decide (d.id = id ∧ d.status = DriverStatus.AVAILABLE)).length)

/-- `prisma.driver.update({ where: { id }, data: { status: AVAILABLE } })`. -/
def freeDriver (drivers : List Driver) (id : ℕ) : List Driver :=
  drivers.map fun d =>
    if d.id = id then { d with status := DriverStatus.AVAILABLE } else d

/-- `tx.ride.update({ where: { id }, data: { path } })`. -/
def setRidePath (rides : List Ride) (id : ℕ) (path : List Point) : List Ride :=
  rides.map fun r => if r.id = id then { r with path := path } else r

/-- `tx.ride.update({ where: { id }, data: { status: COMPLETED } })`. -/
def completeRide (rides : List Ride) (id : ℕ) : List Ride :=
  rides.map fun r => if r.id = id then { r with status := RideStatus.COMPLETED } else r

/-- `tx.booking.update({ where: { id }, data: { rideId, status: CONFIRMED } })`. -/
def confirmBooking (bookings : List Booking) (bookingId rideId : ℕ) : List Booking :=
  bookings.map fun b =>
    if b.id = bookingId
    then { b with rideId := some rideId, status := BookingStatus.CONFIRMED } else b

/-- `tx.booking.update({ where: { id }, data: { status: CANCELLED } })`. -/
def cancelRow (bookings : List Booking) (bookingId : ℕ) : List Booking :=
  bookings.map fun b =>
    if b.id = bookingId then { b with status := BookingStatus.CANCELLED } else b

/-- `addBookingToRide` (pooling service): re-read the ride, append the new
pickup/dropoff to its path, and in one transaction confirm the booking and
write the new path.  A missing booking row makes `tx.booking.update` throw
and the transaction roll back, modelled as an unchanged state. -/
def addBookingToRide (s : DB) (rideId bookingId : ℕ) (pickup dropoff : Point) :
    DB × Option Ride :=
  match s.rides.find? (fun r => decide (r.id = rideId)) with
  | none => (s, none)
  | some ride =>
    let newPath := ride.path ++ [pickup, dropoff]
    if s.bookings.any (fun b => decide (b.id = bookingId)) then
      ({ s with
          bookings := confirmBooking s.bookings bookingId rideId,
          rides := setRidePath s.rides rideId newPath },
       some { ride with path := newPath })
    else (s, none)

/-- The `$transaction` block of `createNewRide`: create the SCHEDULED ride
with `path = [pickup, dropoff]` for the claimed driver and confirm the
booking; a missing booking row aborts and rolls the block back (`none`). -/
def createRideTx (s : DB) (driverId bookingId : ℕ) (pickup dropoff : Point) :
    DB × Option Ride :=
  let ride : Ride :=
    { id := s.nextRideId, driverId := driverId, status := RideStatus.SCHEDULED,
      path := [pickup, dropoff] }
  if s.bookings.any (fun b => decide (b.id = bookingId)) then
    ({ s with
        rides := s.rides ++ [ride],
        bookings := confirmBooking s.bookings bookingId ride.id,
        nextRideId := s.nextRideId + 1 },
     some ride)
  else (s, none)

/-- The candidate loop of `createNewRide`: attempt the conditional claim on
each candidate in turn; on the first claim that reports a change, run the
ride-creation transaction, reverting the driver to AVAILABLE if it fails;
candidates whose claim reports zero changes are skipped. -/
def createNewRideLoop (s : DB) (candidates : List Driver) (bookingId : ℕ)
    (pickup dropoff : Point) : DB × Option Ride :=
  match candidates with
  | [] => (s, none)
  | c :: rest =>
    let claimed := claimDriver s.drivers c.id
    if 0 < claimed.2 then
      let s1 := { s with drivers := claimed.1 }
      match createRideTx s1 c.id bookingId pickup dropoff with
      | (s2, some ride) => (s2, some ride)
      | (_, none) => ({ s1 with drivers := freeDriver s1.drivers c.id }, none)
    else createNewRideLoop s rest bookingId pickup dropoff

/-- `prisma.driver.findMany({ where: { status: AVAILABLE }, take: 5 })`. -/
def readCandidates (s : DB) : List Driver :=
  (s.drivers.filter fun d => decide (d.status = DriverStatus.AVAILABLE)).take 5

/-- `createNewRide` (pooling service): read at most five AVAILABLE
candidates, then run the claim loop against them. -/
def createNewRide (s : DB) (bookingId : ℕ) (pickup dropoff : Point) :
    DB × Option Ride :=
  createNewRideLoop s (readCandidates s) bookingId pickup dropoff

/-- `matchRide` (pooling service): join the first admissible existing ride,
otherwise create a new one. -/
def matchRide (dist : Point → Point → ℚ) (s : DB) (bookingId : ℕ)
    (pickup dropoff : Point) : DB × Option Ride :=
  match findExistingRide dist s pickup dropoff with
  | some ride => addBookingToRide s ride.id bookingId pickup dropoff
  | none => createNewRide s bookingId pickup dropoff

/-- Outcome reported by `cancelBooking` (HTTP 200 / 404 / 400 / 500). -/
inductive CancelResult where
  | ok
  | notFound
  | alreadyCancelled
  | txFailed
deriving DecidableEq, Repr

/-- `booking.ride.bookings.filter(b => b.id !== booking.id && b.status !==
'CANCELLED').length`: the active bookings of the ride excluding the one
being cancelled. -/
def activeOthers (s : DB) (r : Ride) (b : Booking) : ℕ :=
  ((bookingsOf s r.id).filter fun x =>
    decide (x.id ≠ b.id ∧ x.status ≠ BookingStatus.CANCELLED)).length

/-- `cancelBooking` (booking controller): reject a missing or already
cancelled booking before any write; otherwise, in one transaction, cancel
the booking and, when it was the last active booking of its ride, complete
the ride and free its driver.  A missing driver row makes `tx.driver.update`
throw and the whole transaction roll back. -/
def cancelBooking (s : DB) (bookingId : ℕ) : DB × CancelResult :=
  match s.bookings.find? (fun b => decide (b.id = bookingId)) with
  | none => (s, CancelResult.notFound)
  | some booking =>
    if booking.status = BookingStatus.CANCELLED then (s, CancelResult.alreadyCancelled)
    else
      match booking.rideId.bind (fun rid => s.rides.find? fun r => decide (r.id = rid)) with
      | none => ({ s with bookings := cancelRow s.bookings booking.id }, CancelResult.ok)
      | some ride =>
        if activeOthers s ride booking = 0 then
          if s.drivers.any (fun d => decide (d.id = ride.driverId)) then
            ({ s with
                bookings := cancelRow s.bookings booking.id,
                rides := completeRide s.rides ride.id,
                drivers := freeDriver s.drivers ride.driverId },
             CancelResult.ok)
          else (s, CancelResult.txFailed)
        else ({ s with bookings := cancelRow s.bookings booking.id }, CancelResult.ok)

/-- Number of BUSY drivers. -/
def busyCount (s : DB) : ℕ :=
  (s.drivers.filter fun d => decide (d.status = DriverStatus.BUSY)).length

/-- Number of SCHEDULED rides. -/
def scheduledCount (s : DB) : ℕ :=
  (s.rides.filter fun r => decide (r.status = RideStatus.SCHEDULED)).length

/-- Number of AVAILABLE drivers. -/
def availableCount (s : DB) : ℕ :=
  (s.drivers.filter fun d => decide (d.status = DriverStatus.AVAILABLE)).length

/-- `calculatePrice` (pricing service), exact over ℚ: base 50 plus 12 per km,
scaled by a utilisation multiplier. -/
def calculatePrice (s : DB) (distanceKm : ℚ) : ℚ :=
  let basePrice : ℚ := 50
  let perKmPrice : ℚ := 12
  let totalDrivers := s.drivers.length
  let busyDrivers := busyCount s
  let multiplier : ℚ :=
    if 0 < totalDrivers then
      let utilisePct : ℚ := (busyDrivers : ℚ) / (totalDrivers : ℚ)
      if 4/5 < utilisePct then 3/2
      else if 1/2 < utilisePct then 6/5
      else 1
    else 1
  (basePrice + distanceKm * perKmPrice) * multiplier

/-- JavaScript falsiness of an optional number: `undefined` and `0` are
falsy (`NaN`, which is also falsy, is outside the rational model). -/
def numFalsy : Option ℚ → Bool
  | none => true
  | some q => decide (q = 0)

/-- The coordinate validation of `createBooking`:
`!pickup || !dropoff || !pickup.lat || !dropoff.lat`. -/
def invalidCoords : Option Point → Option Point → Bool
  | none, _ => true
  | some _, none => true
  | some p, some d => numFalsy p.lat || numFalsy d.lat

/-- Outcome reported by `createBooking` (HTTP 400 / 201 CONFIRMED / 201
PENDING). -/
inductive CreateResult where
  | invalidCoords
  | confirmed (bookingId rideId : ℕ) (price : ℚ)
  | pending (bookingId : ℕ) (price : ℚ)
deriving DecidableEq, Repr

/-- `createBooking` (booking controller): validate the coordinates, price the
direct distance, create a PENDING booking row, then try to match it. -/
def createBooking (dist : Point → Point → ℚ) (s : DB) (userId : ℕ)
    (pickup dropoff : Option Point) : DB × CreateResult :=
  if invalidCoords pickup dropoff then (s, CreateResult.invalidCoords)
  else
    match pickup, dropoff with
    | some p, some d =>
      let price := calculatePrice s (dist p d)
      let booking : Booking :=
        { id := s.nextBookingId, userId := userId, pickup := p, dropoff := d,
          price := price, status := BookingStatus.PENDING, rideId := none }
      let s1 := { s with bookings := s.bookings ++ [booking],
                         nextBookingId := s.nextBookingId + 1 }
      match matchRide dist s1 booking.id p d with
      | (s2, some ride) => (s2, CreateResult.confirmed booking.id ride.id price)
      | (s2, none) => (s2, CreateResult.pending booking.id price)
    | _, _ => (s, CreateResult.invalidCoords)

/-- The two public operations of the matching core
(`matchRequest` / `cancelRequest`). -/
inductive Op where
  | matchReq (bookingId : ℕ) (pickup dropoff : Point)
  | cancelReq (bookingId : ℕ)
deriving DecidableEq, Repr

/-- Whether an operation is a `matchRequest`. -/
def isMatchOp : Op → Bool
  | Op.matchReq _ _ _ => true
  | Op.cancelReq _ => false

/-- State effect of one operation. -/
def applyOp (dist : Point → Point → ℚ) (s : DB) : Op → DB
  | Op.matchReq bid p d => (matchRide dist s bid p d).1
  | Op.cancelReq bid => (cancelBooking s bid).1

/-- Run a sequence of operations. -/
def run (dist : Point → Point → ℚ) (s0 : DB) (ops : List Op) : DB :=
  ops.foldl (applyOp dist) s0

/-- `n` concurrent callers each performing the atomic conditional claim of
`createNewRide` on the same vehicle: the claim is a single indivisible store
operation, so an interleaving of `n` one-shot callers is a sequence of `n`
claims; the second component records the changed-row count each caller
observes, in execution order. -/
def runClaims (drivers : List Driver) (vid : ℕ) : ℕ → List Driver × List ℕ
  | 0 => (drivers, [])
  | n + 1 =>
    let attempt := claimDriver drivers vid
    let rest := runClaims attempt.1 vid n
    (rest.1, attempt.2 :: rest.2)

/-- A concrete computable distance function (squared euclidean distance on
the coordinate plane, missing coordinates read as 0) used to instantiate the
abstract distance parameter in witnesses and counterexamples; the properties
at issue are independent of the metric. -/
def dist0 (p q : Point) : ℚ :=
  let dl := p.lat.getD 0 - q.lat.getD 0
  let dg := p.lng.getD 0 - q.lng.getD 0
  dl * dl + dg * dg

/-- A point on the `lng = 0` meridian. -/
def pt (x : ℚ) : Point := { lat := some x, lng := some 0 }

/-- The initial states of the C1 scenario: every vehicle AVAILABLE, no trip,
every booking unattached, distinct row ids. -/
def InitState (s : DB) : Prop :=
  (∀ d ∈ s.drivers, d.status = DriverStatus.AVAILABLE)
  ∧ s.rides = []
  ∧ (∀ b ∈ s.bookings, b.rideId = none)
  ∧ (s.drivers.map Driver.id).Nodup
  ∧ (s.bookings.map Booking.id).Nodup

/-- The inductive invariant of the matching core, preserved by `matchRide`
and `cancelBooking`. -/
structure Inv (s : DB) : Prop where
  driversNodup : (s.drivers.map Driver.id).Nodup
  ridesNodup : (s.rides.map Ride.id).Nodup
  bookingsNodup : (s.bookings.map Booking.id).Nodup
  ridesFresh : ∀ r ∈ s.rides, r.id < s.nextRideId
  schedBusy : ∀ r ∈ s.rides, r.status = RideStatus.SCHEDULED →
    ∃ d ∈ s.drivers, d.id = r.driverId ∧ d.status = DriverStatus.BUSY
  schedInj : ∀ r ∈ s.rides, ∀ r' ∈ s.rides, r.status = RideStatus.SCHEDULED →
    r'.status = RideStatus.SCHEDULED → r.driverId = r'.driverId → r = r'
  busyRide : ∀ d ∈ s.drivers, d.status = DriverStatus.BUSY →
    ∃ r ∈ s.rides, r.status = RideStatus.SCHEDULED ∧ r.driverId = d.id
  bookingRide : ∀ b ∈ s.bookings, b.status ≠ BookingStatus.CANCELLED →
    ∀ rid, b.rideId = some rid →
      ∃ r ∈ s.rides, r.id = rid ∧ r.status = RideStatus.SCHEDULED

/-- Concrete scenario: one AVAILABLE vehicle and two PENDING unattached
bookings. -/
def fleetOneState : DB :=
  { drivers := [{ id := 0, capacity := 4, status := DriverStatus.AVAILABLE }]
    rides := []
    bookings :=
      [{ id := 0, userId := 0, pickup := pt 0, dropoff := pt 1, price := 0,
         status := BookingStatus.PENDING, rideId := none },
       { id := 1, userId := 1, pickup := pt 0, dropoff := pt 1, price := 0,
         status := BookingStatus.PENDING, rideId := none }]
    nextRideId := 0
    nextBookingId := 2 }

/-- Match the first booking, cancel it (freeing the vehicle), then match the
second booking. -/
def fleetOneOps : List Op :=
  [Op.matchReq 0 (pt 0) (pt 1), Op.cancelReq 0, Op.matchReq 1 (pt 0) (pt 1)]

/-- Concrete scenario: a SCHEDULED trip with path `[pt 0, pt 1]` whose only
attached booking is CANCELLED with a long direct leg (`pt 0` to `pt 10`). -/
def detourState : DB :=
  { drivers := [{ id := 0, capacity := 4, status := DriverStatus.BUSY }]
    rides := [{ id := 0, driverId := 0, status := RideStatus.SCHEDULED,
                path := [pt 0, pt 1] }]
    bookings :=
      [{ id := 0, userId := 0, pickup := pt 0, dropoff := pt 10, price := 0,
         status := BookingStatus.CANCELLED, rideId := some 0 }]
    nextRideId := 1
    nextBookingId := 1 }

/-- Concrete scenario: a capacity-1 vehicle whose SCHEDULED trip holds one
CANCELLED booking, and nothing else. -/
def cancelSeatState : DB :=
  { drivers := [{ id := 0, capacity := 1, status := DriverStatus.BUSY }]
    rides := [{ id := 0, driverId := 0, status := RideStatus.SCHEDULED, path := [] }]
    bookings :=
      [{ id := 0, userId := 0, pickup := pt 0, dropoff := pt 0, price := 0,
         status := BookingStatus.CANCELLED, rideId := some 0 }]
    nextRideId := 1
    nextBookingId := 1 }

/-- Concrete scenario: a single CONFIRMED booking riding alone on a
SCHEDULED trip with a BUSY vehicle. -/
def soloTripState : DB :=
  { drivers := [{ id := 0, capacity := 4, status := DriverStatus.BUSY }]
    rides := [{ id := 0, driverId := 0, status := RideStatus.SCHEDULED,
                path := [pt 0, pt 1] }]
    bookings :=
      [{ id := 0, userId := 0, pickup := pt 0, dropoff := pt 1, price := 0,
         status := BookingStatus.CONFIRMED, rideId := some 0 }]
    nextRideId := 1
    nextBookingId := 1 }

/-- Concrete scenario: one BUSY and one AVAILABLE vehicle, one PENDING
booking. -/
def mixedFleetState : DB :=
  { drivers := [{ id := 0, capacity := 4, status := DriverStatus.BUSY },
                { id := 1, capacity := 4, status := DriverStatus.AVAILABLE }]
    rides := []
    bookings :=
      [{ id := 0, userId := 0, pickup := pt 0, dropoff := pt 1, price := 0,
         status := BookingStatus.PENDING, rideId := none }]
    nextRideId := 0
    nextBookingId := 1 }

/-! ## Generic list lemmas for by-id row updates -/

/-- An update that rewrites selected rows in place leaves any projection the
rewrite preserves unchanged. -/
theorem map_ite_proj {α β : Type} (l : List α) (q : α → Prop) [DecidablePred q]
    (f : α → α) (g : α → β) (h : ∀ a, g (f a) = g a) :
    (l.map fun a => if q a then f a else a).map g = l.map g := by
  induction l with
  | nil => rfl
  | cons a t ih =>
    by_cases hq : q a <;> simp [hq, ih, h]

/-- In a table with no duplicate ids, rows with equal ids are equal. -/
theorem eq_of_mem_of_id_eq {α : Type} (getId : α → ℕ) {l : List α}
    (hnd : (l.map getId).Nodup) {x y : α} (hx : x ∈ l) (hy : y ∈ l)
    (hid : getId x = getId y) : x = y := by
  induction l with
  | nil => cases hx
  | cons a t ih =>
    simp only [List.map_cons, List.nodup_cons] at hnd
    rcases List.mem_cons.mp hx with rfl | hx' <;>
      rcases List.mem_cons.mp hy with rfl | hy'
    · rfl
    · exact absurd (hid ▸ List.mem_map_of_mem getId hy') hnd.1
    · exact absurd (hid ▸ List.mem_map_of_mem getId hx') hnd.1
    · exact ih hnd.2 hx' hy'

/-- In a table with no duplicate ids, `find?` by id returns the unique row
with that id. -/
theorem find_eq_of_mem_nodup {α : Type} (getId : α → ℕ) {l : List α} {v : ℕ}
    (hnd : (l.map getId).Nodup) {x : α} (hx : x ∈ l) (hv : getId x = v) :
    l.find? (fun y => decide (getId y = v)) = some x := by
  induction l with
  | nil => cases hx
  | cons a t ih =>
    simp only [List.map_cons, List.nodup_cons] at hnd
    by_cases ha : getId a = v
    · rw [List.find?_cons_of_pos _ (by simp [ha])]
      rcases List.mem_cons.mp hx with rfl | hx'
      · rfl
      · exact absurd ((hv.trans ha.symm) ▸ List.mem_map_of_mem getId hx') hnd.1
    · rw [List.find?_cons_of_neg _ (by simp [ha])]
      rcases List.mem_cons.mp hx with rfl | hx'
      · exact absurd hv ha
      · exact ih hnd.2 hx'

/-! ## The BUSY-driver / SCHEDULED-ride correspondence -/

/-- Under the invariant, `driverId` is a bijection between SCHEDULED rides
and BUSY drivers, so the two counts agree. -/
theorem inv_busy_eq_scheduled {s : DB} (h : Inv s) : busyCount s = scheduledCount s := by
  have hBnd : ((s.drivers.filter fun d =>
      decide (d.status = DriverStatus.BUSY)).map Driver.id).Nodup :=
    ((List.filter_sublist _).map Driver.id).nodup h.driversNodup
  have hSnd : ((s.rides.filter fun r =>
      decide (r.status = RideStatus.SCHEDULED)).map Ride.driverId).Nodup := by
    refine List.Nodup.map_on ?_ (((h.ridesNodup).of_map).filter _)
    intro x hx y hy hxy
    rw [List.mem_filter] at hx hy
    exact h.schedInj x hx.1 y hy.1 (by simpa using hx.2) (by simpa using hy.2) hxy
  have hmem : ∀ a, a ∈ ((s.rides.filter fun r =>
        decide (r.status = RideStatus.SCHEDULED)).map Ride.driverId) ↔
      a ∈ ((s.drivers.filter fun d =>
        decide (d.status = DriverStatus.BUSY)).map Driver.id) := by
    intro a
    constructor
    · intro ha
      rcases List.mem_map.mp ha with ⟨r, hr, rfl⟩
      rw [List.mem_filter] at hr
      rcases h.schedBusy r hr.1 (by simpa using hr.2) with ⟨d, hd, hid, hbusy⟩
      exact List.mem_map.mpr ⟨d, List.mem_filter.mpr ⟨hd, by simp [hbusy]⟩, hid⟩
    · intro ha
      rcases List.mem_map.mp ha with ⟨d, hd, rfl⟩
      rw [List.mem_filter] at hd
      rcases h.busyRide d hd.1 (by simpa using hd.2) with ⟨r, hr, hsched, hid⟩
      exact List.mem_map.mpr ⟨r, List.mem_filter.mpr ⟨hr, by simp [hsched]⟩, hid⟩
  have hperm := (List.perm_ext_iff_of_nodup hSnd hBnd).mpr hmem
  have := hperm.length_eq
  simpa [busyCount, scheduledCount] using this.symm

/-! ## Invariant preservation -/

theorem claim_fst_ids (drivers : List Driver) (vid : ℕ) :
    ((claimDriver drivers vid).1.map Driver.id) = drivers.map Driver.id :=
  map_ite_proj _ _ _ _ (fun _ => rfl)

theorem freeDriver_ids (drivers : List Driver) (vid : ℕ) :
    ((freeDriver drivers vid).map Driver.id) = drivers.map Driver.id :=
  map_ite_proj _ _ _ _ (fun _ => rfl)

theorem setRidePath_ids (rides : List Ride) (id : ℕ) (pth : List Point) :
    ((setRidePath rides id pth).map Ride.id) = rides.map Ride.id :=
  map_ite_proj _ _ _ _ (fun _ => rfl)

theorem completeRide_ids (rides : List Ride) (id : ℕ) :
    ((completeRide rides id).map Ride.id) = rides.map Ride.id :=
  map_ite_proj _ _ _ _ (fun _ => rfl)

theorem confirmBooking_ids (bookings : List Booking) (bid rid : ℕ) :
    ((confirmBooking bookings bid rid).map Booking.id) = bookings.map Booking.id :=
  map_ite_proj _ _ _ _ (fun _ => rfl)

theorem cancelRow_ids (bookings : List Booking) (bid : ℕ) :
    ((cancelRow bookings bid).map Booking.id) = bookings.map Booking.id :=
  map_ite_proj _ _ _ _ (fun _ => rfl)

/-- Attaching a booking to a SCHEDULED ride (the success state of
`addBookingToRide`) preserves the invariant. -/
theorem inv_attach_state {s : DB} (h : Inv s) {r : Ride} (hr : r ∈ s.rides)
    (hsched : r.status = RideStatus.SCHEDULED) (bid : ℕ) (pth : List Point) :
    Inv { s with bookings := confirmBooking s.bookings bid r.id,
                 rides := setRidePath s.rides r.id pth } := by
  have hproj : ∀ r0 : Ride,
      (if r0.id = r.id then { r0 with path := pth } else r0).id = r0.id ∧
      (if r0.id = r.id then { r0 with path := pth } else r0).status = r0.status ∧
      (if r0.id = r.id then { r0 with path := pth } else r0).driverId = r0.driverId := by
    intro r0; by_cases h0 : r0.id = r.id <;> simp [h0]
  refine ⟨h.driversNodup, ?_, ?_, ?_, ?_, ?_, ?_, ?_⟩
  · exact (setRidePath_ids s.rides r.id pth) ▸ h.ridesNodup
  · exact (confirmBooking_ids s.bookings bid r.id) ▸ h.bookingsNodup
  · intro r' hr'
    rcases List.mem_map.mp hr' with ⟨r0, hr0, rfl⟩
    simpa [(hproj r0).1] using h.ridesFresh r0 hr0
  · intro r' hr' hs'
    rcases List.mem_map.mp hr' with ⟨r0, hr0, rfl⟩
    rcases h.schedBusy r0 hr0 (((hproj r0).2.1) ▸ hs') with ⟨d, hd, hdid, hb⟩
    exact ⟨d, hd, ((hproj r0).2.2).symm ▸ hdid, hb⟩
  · intro r1 h1 r2 h2 hs1 hs2 hdd
    rcases List.mem_map.mp h1 with ⟨r01, hr01, rfl⟩
    rcases List.mem_map.mp h2 with ⟨r02, hr02, rfl⟩
    have : r01 = r02 :=
      h.schedInj r01 hr01 r02 hr02 ((hproj r01).2.1 ▸ hs1) ((hproj r02).2.1 ▸ hs2)
        ((hproj r01).2.2 ▸ (hproj r02).2.2 ▸ hdd)
    rw [this]
  · intro d hd hb
    rcases h.busyRide d hd hb with ⟨r0, hr0, hs0, hid0⟩
    refine ⟨(if r0.id = r.id then { r0 with path := pth } else r0),
      List.mem_map_of_mem _ hr0, ?_, ?_⟩
    · exact (hproj r0).2.1.symm ▸ hs0
    · exact (hproj r0).2.2.symm ▸ hid0
  · intro b' hb' hnc rid hrid
    rcases List.mem_map.mp hb' with ⟨b0, hb0, rfl⟩
    by_cases h0 : b0.id = bid
    · rw [if_pos h0] at hrid
      have hridr : rid = r.id := by simpa using hrid.symm
      refine ⟨(if r.id = r.id then { r with path := pth } else r),
        List.mem_map_of_mem _ hr, ?_, ?_⟩
      · rw [hridr]; exact (hproj r).1
      · exact (hproj r).2.1.symm ▸ hsched
    · rw [if_neg h0] at hrid hnc
      rcases h.bookingRide b0 hb0 hnc rid hrid with ⟨r0, hr0, hid0, hs0⟩
      refine ⟨(if r0.id = r.id then { r0 with path := pth } else r0),
        List.mem_map_of_mem _ hr0, ?_, ?_⟩
      · exact (hproj r0).1.symm ▸ hid0
      · exact (hproj r0).2.1.symm ▸ hs0

/-- Claiming an AVAILABLE driver and creating its SCHEDULED ride (the success
state of `createNewRide`) preserves the invariant. -/
theorem inv_claim_create_state {s : DB} (h : Inv s) {w : Driver} {vid : ℕ}
    (hw : w ∈ s.drivers) (hid : w.id = vid) (hav : w.status = DriverStatus.AVAILABLE)
    (bid : ℕ) (pickup dropoff : Point) :
    Inv { s with
      drivers := (claimDriver s.drivers vid).1,
      rides := s.rides ++ [{ id := s.nextRideId, driverId := vid,
                             status := RideStatus.SCHEDULED, path := [pickup, dropoff] }],
      bookings := confirmBooking s.bookings bid s.nextRideId,
      nextRideId := s.nextRideId + 1 } := by
  have hclaim : ∀ d0 : Driver,
      (if d0.id = vid ∧ d0.status = DriverStatus.AVAILABLE
        then { d0 with status := DriverStatus.BUSY } else d0).id = d0.id := by
    intro d0
    by_cases h0 : d0.id = vid ∧ d0.status = DriverStatus.AVAILABLE <;> simp [h0]
  have hnotBusyAvail : ∀ r0 ∈ s.rides, r0.status = RideStatus.SCHEDULED →
      r0.driverId ≠ vid := by
    intro r0 hr0 hs0 hcontra
    rcases h.schedBusy r0 hr0 hs0 with ⟨d, hd, hdid, hb⟩
    have : d = w := eq_of_mem_of_id_eq Driver.id h.driversNodup hd hw
      (by rw [hdid, hcontra, hid])
    rw [this, hav] at hb
    exact absurd hb (by simp)
  refine ⟨?_, ?_, ?_, ?_, ?_, ?_, ?_, ?_⟩
  · exact (claim_fst_ids s.drivers vid) ▸ h.driversNodup
  · rw [List.map_append]
    rw [List.nodup_append]
    refine ⟨h.ridesNodup, by simp, ?_⟩
    intro a ha hb
    simp only [List.map_cons, List.map_nil, List.mem_singleton] at hb
    rcases List.mem_map.mp ha with ⟨r0, hr0, hr0id⟩
    have := h.ridesFresh r0 hr0
    omega
  · exact (confirmBooking_ids s.bookings bid s.nextRideId) ▸ h.bookingsNodup
  · intro r' hr'
    rcases List.mem_append.mp hr' with hold | hnew
    · have := h.ridesFresh r' hold
      simp only
      omega
    · simp only [List.mem_singleton] at hnew
      rw [hnew]
      simp
  · intro r' hr' hs'
    rcases List.mem_append.mp hr' with hold | hnew
    · rcases h.schedBusy r' hold hs' with ⟨d, hd, hdid, hb⟩
      refine ⟨(if d.id = vid ∧ d.status = DriverStatus.AVAILABLE
          then { d with status := DriverStatus.BUSY } else d),
        List.mem_map_of_mem _ hd, ?_⟩
      have hdnv : ¬(d.id = vid ∧ d.status = DriverStatus.AVAILABLE) := by
        rintro ⟨h1, _⟩
        exact hnotBusyAvail r' hold hs' (hdid ▸ h1)
      rw [if_neg hdnv]
      exact ⟨hdid, hb⟩
    · simp only [List.mem_singleton] at hnew
      rw [hnew]
      refine ⟨(if w.id = vid ∧ w.status = DriverStatus.AVAILABLE
          then { w with status := DriverStatus.BUSY } else w),
        List.mem_map_of_mem _ hw, ?_⟩
      rw [if_pos ⟨hid, hav⟩]
      exact ⟨hid, rfl⟩
  · intro r1 h1 r2 h2 hs1 hs2 hdd
    rcases List.mem_append.mp h1 with h1o | h1n <;>
      rcases List.mem_append.mp h2 with h2o | h2n
    · exact h.schedInj r1 h1o r2 h2o hs1 hs2 hdd
    · simp only [List.mem_singleton] at h2n
      exfalso
      exact hnotBusyAvail r1 h1o hs1 (by rw [hdd, h2n])
    · simp only [List.mem_singleton] at h1n
      exfalso
      exact hnotBusyAvail r2 h2o hs2 (by rw [← hdd, h1n])
    · simp only [List.mem_singleton] at h1n h2n
      rw [h1n, h2n]
  · intro d' hd' hb'
    rcases List.mem_map.mp hd' with ⟨d0, hd0, rfl⟩
    by_cases h0 : d0.id = vid ∧ d0.status = DriverStatus.AVAILABLE
    · refine ⟨{ id := s.nextRideId, driverId := vid,
                 status := RideStatus.SCHEDULED, path := [pickup, dropoff] },
        List.mem_append.mpr (Or.inr (by simp)), rfl, ?_⟩
      rw [if_pos h0]
      exact h0.1.symm
    · rw [if_neg h0] at hb' ⊢
      rcases h.busyRide d0 hd0 hb' with ⟨r0, hr0, hs0, hid0⟩
      exact ⟨r0, List.mem_append.mpr (Or.inl hr0), hs0, hid0⟩
  · intro b' hb' hnc rid hrid
    rcases List.mem_map.mp hb' with ⟨b0, hb0, rfl⟩
    by_cases h0 : b0.id = bid
    · rw [if_pos h0] at hrid
      have hridr : rid = s.nextRideId := by simpa using hrid.symm
      refine ⟨{ id := s.nextRideId, driverId := vid,
                 status := RideStatus.SCHEDULED, path := [pickup, dropoff] },
        List.mem_append.mpr (Or.inr (by simp)), by rw [hridr], rfl⟩
    · rw [if_neg h0] at hrid hnc
      rcases h.bookingRide b0 hb0 hnc rid hrid with ⟨r0, hr0, hid0, hs0⟩
      exact ⟨r0, List.mem_append.mpr (Or.inl hr0), hid0, hs0⟩

/-- Cancelling a booking row alone (no ride attached, or other active
bookings remain) preserves the invariant. -/
theorem inv_cancel_simple {s : DB} (h : Inv s) (bid : ℕ) :
    Inv { s with bookings := cancelRow s.bookings bid } := by
  refine ⟨h.driversNodup, h.ridesNodup, ?_, h.ridesFresh, h.schedBusy,
    h.schedInj, h.busyRide, ?_⟩
  · exact (cancelRow_ids s.bookings bid) ▸ h.bookingsNodup
  · intro b' hb' hnc rid hrid
    rcases List.mem_map.mp hb' with ⟨b0, hb0, rfl⟩
    by_cases h0 : b0.id = bid
    · rw [if_pos h0] at hnc
      exact absurd rfl hnc
    · rw [if_neg h0] at hrid hnc
      exact h.bookingRide b0 hb0 hnc rid hrid

/-- Cancelling the last active booking of a SCHEDULED ride, completing the
ride and freeing its driver (the release state of `cancelBooking`) preserves
the invariant. -/
theorem inv_cancel_release {s : DB} (h : Inv s) {b : Booking} {r : Ride}
    (_hb : b ∈ s.bookings) (hr : r ∈ s.rides) (hsched : r.status = RideStatus.SCHEDULED)
    (hact : activeOthers s r b = 0) :
    Inv { s with bookings := cancelRow s.bookings b.id,
                 rides := completeRide s.rides r.id,
                 drivers := freeDriver s.drivers r.driverId } := by
  have hnoActive : ∀ b0 ∈ s.bookings, b0.rideId = some r.id → b0.id ≠ b.id →
      b0.status = BookingStatus.CANCELLED := by
    intro b0 hb0 hb0r hb0id
    by_contra hb0nc
    have hmem : b0 ∈ (bookingsOf s r.id).filter fun x =>
        decide (x.id ≠ b.id ∧ x.status ≠ BookingStatus.CANCELLED) := by
      refine List.mem_filter.mpr ⟨List.mem_filter.mpr ⟨hb0, by simp [hb0r]⟩, ?_⟩
      simp [hb0id, hb0nc]
    rw [activeOthers, List.length_eq_zero] at hact
    rw [hact] at hmem
    cases hmem
  refine ⟨?_, ?_, ?_, ?_, ?_, ?_, ?_, ?_⟩
  · exact (freeDriver_ids s.drivers r.driverId) ▸ h.driversNodup
  · exact (completeRide_ids s.rides r.id) ▸ h.ridesNodup
  · exact (cancelRow_ids s.bookings b.id) ▸ h.bookingsNodup
  · intro r' hr'
    rcases List.mem_map.mp hr' with ⟨r0, hr0, rfl⟩
    have hge := h.ridesFresh r0 hr0
    by_cases h0 : r0.id = r.id <;> simp [h0] <;> omega
  · intro r' hr' hs'
    rcases List.mem_map.mp hr' with ⟨r0, hr0, rfl⟩
    by_cases h0 : r0.id = r.id
    · rw [if_pos h0] at hs'
      exact absurd hs' (by simp)
    · rw [if_neg h0] at hs' ⊢
      rcases h.schedBusy r0 hr0 hs' with ⟨d, hd, hdid, hbusy⟩
      have hdneq : d.id ≠ r.driverId := by
        intro hcontra
        have : r0 = r := h.schedInj r0 hr0 r hr hs' hsched (by rw [← hdid, hcontra])
        exact h0 (by rw [this])
      refine ⟨(if d.id = r.driverId then { d with status := DriverStatus.AVAILABLE } else d),
        List.mem_map_of_mem _ hd, ?_⟩
      rw [if_neg hdneq]
      exact ⟨hdid, hbusy⟩
  · intro r1 h1 r2 h2 hs1 hs2 hdd
    rcases List.mem_map.mp h1 with ⟨r01, hr01, rfl⟩
    rcases List.mem_map.mp h2 with ⟨r02, hr02, rfl⟩
    by_cases e1 : r01.id = r.id
    · rw [if_pos e1] at hs1
      exact absurd hs1 (by simp)
    · by_cases e2 : r02.id = r.id
      · rw [if_pos e2] at hs2
        exact absurd hs2 (by simp)
      · rw [if_neg e1] at hs1 ⊢
        rw [if_neg e2] at hs2 ⊢
        rw [if_neg e1, if_neg e2] at hdd
        rw [h.schedInj r01 hr01 r02 hr02 hs1 hs2 hdd]
  · intro d' hd' hb'
    rcases List.mem_map.mp hd' with ⟨d0, hd0, rfl⟩
    by_cases h0 : d0.id = r.driverId
    · rw [if_pos h0] at hb'
      exact absurd hb' (by simp)
    · rw [if_neg h0] at hb' ⊢
      rcases h.busyRide d0 hd0 hb' with ⟨r0, hr0, hs0, hid0⟩
      have hr0neq : r0.id ≠ r.id := by
        intro hcontra
        have : r0 = r := eq_of_mem_of_id_eq Ride.id h.ridesNodup hr0 hr hcontra
        rw [this] at hid0
        exact h0 hid0.symm
      refine ⟨(if r0.id = r.id then { r0 with status := RideStatus.COMPLETED } else r0),
        List.mem_map_of_mem _ hr0, ?_⟩
      rw [if_neg hr0neq]
      exact ⟨hs0, hid0⟩
  · intro b' hb' hnc rid hrid
    rcases List.mem_map.mp hb' with ⟨b0, hb0, rfl⟩
    by_cases h0 : b0.id = b.id
    · rw [if_pos h0] at hnc
      exact absurd rfl hnc
    · rw [if_neg h0] at hrid hnc
      rcases h.bookingRide b0 hb0 hnc rid hrid with ⟨r0, hr0, hid0, hs0⟩
      have hr0neq : r0.id ≠ r.id := by
        intro hcontra
        have hb0r : b0.rideId = some r.id := by rw [hrid, ← hid0, hcontra]
        exact hnc (hnoActive b0 hb0 hb0r h0)
      refine ⟨(if r0.id = r.id then { r0 with status := RideStatus.COMPLETED } else r0),
        List.mem_map_of_mem _ hr0, ?_⟩
      rw [if_neg hr0neq]
      exact ⟨hid0, hs0⟩

/-- When the transaction after a successful claim fails, reverting the driver
restores the driver table exactly (the claimed driver was AVAILABLE). -/
theorem claim_then_free {drivers : List Driver} (hnd : (drivers.map Driver.id).Nodup)
    {w : Driver} {vid : ℕ} (hw : w ∈ drivers) (hid : w.id = vid)
    (hav : w.status = DriverStatus.AVAILABLE) :
    freeDriver (claimDriver drivers vid).1 vid = drivers := by
  show ((drivers.map fun d =>
      if d.id = vid ∧ d.status = DriverStatus.AVAILABLE
      then { d with status := DriverStatus.BUSY } else d).map fun d =>
      if d.id = vid then { d with status := DriverStatus.AVAILABLE } else d) = drivers
  rw [List.map_map]
  have hpt : ∀ d ∈ drivers,
      ((fun d => if d.id = vid then { d with status := DriverStatus.AVAILABLE } else d) ∘
        fun d => if d.id = vid ∧ d.status = DriverStatus.AVAILABLE
          then { d with status := DriverStatus.BUSY } else d) d = d := by
    intro d hd
    by_cases h1 : d.id = vid
    · have hdav : d.status = DriverStatus.AVAILABLE := by
        rw [eq_of_mem_of_id_eq Driver.id hnd hd hw (by rw [h1, hid])]
        exact hav
      obtain ⟨di, dc, ds⟩ := d
      simp only at h1 hdav
      subst hdav
      subst h1
      simp [Function.comp]
    · simp [Function.comp_apply, h1]
  rw [List.map_congr_left hpt]
  simp

/-- A positive changed-row count of the conditional claim exhibits a driver
row that was AVAILABLE with the claimed id. -/
theorem claim_pos_witness {drivers : List Driver} {vid : ℕ}
    (h : 0 < (claimDriver drivers vid).2) :
    ∃ w ∈ drivers, w.id = vid ∧ w.status = DriverStatus.AVAILABLE := by
  rcases List.exists_mem_of_ne_nil _ (List.length_pos.mp h) with ⟨w, hw⟩
  rw [List.mem_filter] at hw
  exact ⟨w, hw.1, by simpa using hw.2⟩

/-- The candidate claim loop of `createNewRide` preserves the invariant, for
any candidate list. -/
theorem inv_createNewRideLoop {s : DB} (h : Inv s) (cs : List Driver) (bid : ℕ)
    (p d : Point) : Inv (createNewRideLoop s cs bid p d).1 := by
  induction cs with
  | nil => exact h
  | cons c rest ih =>
    simp only [createNewRideLoop]
    by_cases hcl : 0 < (claimDriver s.drivers c.id).2
    · rw [if_pos hcl]
      rcases claim_pos_witness hcl with ⟨w, hw, hwid, hwav⟩
      by_cases hb : s.bookings.any (fun b => decide (b.id = bid)) = true
      · simp only [createRideTx, hb, if_true]
        exact inv_claim_create_state h hw hwid hwav bid p d
      · simp only [createRideTx, hb, if_false, Bool.false_eq_true]
        rw [claim_then_free h.driversNodup hw hwid hwav]
        exact h
    · rw [if_neg hcl]
      exact ih

/-- `matchRide` preserves the invariant. -/
theorem inv_matchRide (dist : Point → Point → ℚ) {s : DB} (h : Inv s) (bid : ℕ)
    (p d : Point) : Inv (matchRide dist s bid p d).1 := by
  unfold matchRide
  split
  · rename_i r hf
    have hr' : r ∈ s.rides ∧ r.status = RideStatus.SCHEDULED := by
      rw [findExistingRide] at hf
      have h1 := List.mem_of_find?_eq_some hf
      rw [List.mem_filter] at h1
      exact ⟨h1.1, by simpa using h1.2⟩
    unfold addBookingToRide
    split
    · exact h
    · rename_i ride hfind
      have hmemr : ride ∈ s.rides := List.mem_of_find?_eq_some hfind
      have heq : ride = r := eq_of_mem_of_id_eq Ride.id h.ridesNodup hmemr hr'.1
        (by simpa using List.find?_some hfind)
      split
      · exact inv_attach_state h hr'.1 (heq ▸ hr'.2) bid _
      · exact h
  · exact inv_createNewRideLoop h (readCandidates s) bid p d

/-- `cancelBooking` preserves the invariant. -/
theorem inv_cancelBooking {s : DB} (h : Inv s) (bid : ℕ) :
    Inv (cancelBooking s bid).1 := by
  unfold cancelBooking
  split
  · exact h
  · rename_i b hfb
    have hbmem : b ∈ s.bookings := List.mem_of_find?_eq_some hfb
    split
    · exact h
    · rename_i hc
      split
      · exact inv_cancel_simple h b.id
      · rename_i r hrb
        obtain ⟨rid, hbrid, hfr⟩ : ∃ rid, b.rideId = some rid ∧
            s.rides.find? (fun x => decide (x.id = rid)) = some r := by
          cases hbr2 : b.rideId with
          | none => rw [hbr2] at hrb; cases hrb
          | some rid0 =>
            rw [hbr2] at hrb
            simp at hrb
            exact ⟨rid0, rfl, hrb⟩
        have hrmem : r ∈ s.rides := List.mem_of_find?_eq_some hfr
        have hridv : r.id = rid := by simpa using List.find?_some hfr
        have hsched : r.status = RideStatus.SCHEDULED := by
          rcases h.bookingRide b hbmem hc rid hbrid with ⟨r', hr', hid', hs'⟩
          have : r = r' := eq_of_mem_of_id_eq Ride.id h.ridesNodup hrmem hr'
            (by rw [hridv, hid'])
          rw [this]
          exact hs'
        split
        · rename_i ha
          split
          · exact inv_cancel_release h hbmem hrmem hsched ha
          · exact h
        · exact inv_cancel_simple h b.id

/-- Every operation of the core preserves the invariant. -/
theorem inv_applyOp (dist : Point → Point → ℚ) {s : DB} (h : Inv s) (op : Op) :
    Inv (applyOp dist s op) := by
  cases op with
  | matchReq bid p d => exact inv_matchRide dist h bid p d
  | cancelReq bid => exact inv_cancelBooking h bid

/-- The invariant holds after any operation sequence. -/
theorem inv_run (dist : Point → Point → ℚ) {s : DB} (h : Inv s) (ops : List Op) :
    Inv (run dist s ops) := by
  induction ops generalizing s with
  | nil => exact h
  | cons op t ih => exact ih (inv_applyOp dist h op)

/-- The initial states of the scenario satisfy the invariant. -/
theorem inv_of_init {s : DB} (h : InitState s) : Inv s := by
  obtain ⟨hav, hrides, hbook, hdnd, hbnd⟩ := h
  refine ⟨hdnd, ?_, hbnd, ?_, ?_, ?_, ?_, ?_⟩
  · rw [hrides]; exact List.nodup_nil
  · intro r hr; rw [hrides] at hr; cases hr
  · intro r hr; rw [hrides] at hr; cases hr
  · intro r hr; rw [hrides] at hr; cases hr
  · intro d hd hb
    rw [hav d hd] at hb
    simp at hb
  · intro b hb hnc rid hr
    rw [hbook b hb] at hr
    cases hr

/-! ## Auxiliary facts for the match-only fleet bound -/

theorem claim_fst_length (drivers : List Driver) (vid : ℕ) :
    (claimDriver drivers vid).1.length = drivers.length := by
  simp [claimDriver]

theorem freeDriver_length (drivers : List Driver) (vid : ℕ) :
    (freeDriver drivers vid).length = drivers.length := by
  simp [freeDriver]

/-- The claim loop never removes a ride and never changes a ride status:
if every ride was SCHEDULED before, every ride is SCHEDULED after. -/
theorem loop_allSched {s : DB} (hA : ∀ r ∈ s.rides, r.status = RideStatus.SCHEDULED)
    (cs : List Driver) (bid : ℕ) (p d : Point) :
    ∀ r ∈ (createNewRideLoop s cs bid p d).1.rides, r.status = RideStatus.SCHEDULED := by
  induction cs with
  | nil => exact hA
  | cons c rest ih =>
    simp only [createNewRideLoop]
    by_cases hcl : 0 < (claimDriver s.drivers c.id).2
    · rw [if_pos hcl]
      by_cases hb : s.bookings.any (fun b => decide (b.id = bid)) = true
      · simp only [createRideTx, hb, if_true]
        intro r hr
        rcases List.mem_append.mp hr with hold | hnew
        · exact hA r hold
        · simp only [List.mem_singleton] at hnew
          rw [hnew]
      · simp only [createRideTx, hb, if_false, Bool.false_eq_true]
        exact hA
    · rw [if_neg hcl]
      exact ih

/-- `matchRide` preserves "every ride is SCHEDULED". -/
theorem matchRide_allSched (dist : Point → Point → ℚ) {s : DB}
    (hA : ∀ r ∈ s.rides, r.status = RideStatus.SCHEDULED) (bid : ℕ) (p d : Point) :
    ∀ r ∈ (matchRide dist s bid p d).1.rides, r.status = RideStatus.SCHEDULED := by
  unfold matchRide
  split
  · rename_i r0 hf
    unfold addBookingToRide
    split
    · exact hA
    · rename_i ride hfind
      split
      · intro r hr
        rcases List.mem_map.mp hr with ⟨x, hx, rfl⟩
        by_cases h0 : x.id = r0.id <;> simp [h0, hA x hx]
      · exact hA
  · exact loop_allSched hA (readCandidates s) bid p d

/-- No operation changes the number of driver rows. -/
theorem loop_drivers_length (s : DB) (cs : List Driver) (bid : ℕ) (p d : Point) :
    (createNewRideLoop s cs bid p d).1.drivers.length = s.drivers.length := by
  induction cs with
  | nil => rfl
  | cons c rest ih =>
    simp only [createNewRideLoop]
    by_cases hcl : 0 < (claimDriver s.drivers c.id).2
    · rw [if_pos hcl]
      by_cases hb : s.bookings.any (fun b => decide (b.id = bid)) = true
      · simp only [createRideTx, hb, if_true]
        exact claim_fst_length s.drivers c.id
      · simp only [createRideTx, hb, if_false, Bool.false_eq_true]
        rw [freeDriver_length, claim_fst_length]
    · rw [if_neg hcl]
      exact ih

theorem applyOp_drivers_length (dist : Point → Point → ℚ) (s : DB) (op : Op) :
    (applyOp dist s op).drivers.length = s.drivers.length := by
  cases op with
  | matchReq bid p d =>
    show (matchRide dist s bid p d).1.drivers.length = _
    unfold matchRide
    split
    · unfold addBookingToRide
      split
      · rfl
      · split
        · rfl
        · rfl
    · exact loop_drivers_length s (readCandidates s) bid p d
  | cancelReq bid =>
    show (cancelBooking s bid).1.drivers.length = _
    unfold cancelBooking
    split
    · rfl
    · split
      · rfl
      · split
        · rfl
        · split
          · split
            · exact freeDriver_length s.drivers _
            · rfl
          · rfl

theorem run_drivers_length (dist : Point → Point → ℚ) (s : DB) (ops : List Op) :
    (run dist s ops).drivers.length = s.drivers.length := by
  induction ops generalizing s with
  | nil => rfl
  | cons op t ih =>
    calc (run dist (applyOp dist s op) t).drivers.length
        = (applyOp dist s op).drivers.length := ih (applyOp dist s op)
      _ = s.drivers.length := applyOp_drivers_length dist s op

/-- In a run made of match operations only, every ride stays SCHEDULED. -/
theorem run_allSched (dist : Point → Point → ℚ) {s : DB}
    (hA : ∀ r ∈ s.rides, r.status = RideStatus.SCHEDULED) (ops : List Op)
    (hM : ∀ op ∈ ops, isMatchOp op = true) :
    ∀ r ∈ (run dist s ops).rides, r.status = RideStatus.SCHEDULED := by
  induction ops generalizing s with
  | nil => exact hA
  | cons op t ih =>
    cases op with
    | matchReq bid p d =>
      exact ih (matchRide_allSched dist hA bid p d)
        (fun o ho => hM o (List.mem_cons_of_mem _ ho))
    | cancelReq bid =>
      exact absurd (hM _ (List.mem_cons_self _ _)) (by simp [isMatchOp])

/-! ## C1: counting invariant and fleet bound -/

/-- C1 (amended): starting from a state where every vehicle is AVAILABLE and
no trip exists, at every operation boundary of a `matchRequest` /
`cancelRequest` sequence the number of BUSY vehicles equals the number of
SCHEDULED trips; and for sequences consisting only of `matchRequest`
operations the number of trips ever created (rides are only ever appended,
so the ride-table length counts them) never exceeds the initial number of
idle vehicles. -/
theorem busy_equals_scheduled_and_match_only_bound (dist : Point → Point → ℚ)
    (s0 : DB) (ops mops : List Op) (h0 : InitState s0)
    (hM : ∀ op ∈ mops, isMatchOp op = true) :
    busyCount (run dist s0 ops) = scheduledCount (run dist s0 ops)
    ∧ (run dist s0 mops).rides.length ≤ availableCount s0 := by
  have hinv0 := inv_of_init h0
  refine ⟨inv_busy_eq_scheduled (inv_run dist hinv0 ops), ?_⟩
  have hA0 : ∀ r ∈ s0.rides, r.status = RideStatus.SCHEDULED := by
    rw [h0.2.1]
    intro r hr
    cases hr
  have hAS := run_allSched dist hA0 mops hM
  have h1 : (run dist s0 mops).rides.length = scheduledCount (run dist s0 mops) := by
    rw [scheduledCount, List.filter_eq_self.mpr (fun r hr => by simp [hAS r hr])]
  have h2 := inv_busy_eq_scheduled (inv_run dist hinv0 mops)
  have h3 : busyCount (run dist s0 mops) ≤ (run dist s0 mops).drivers.length :=
    List.length_filter_le _ _
  have h4 := run_drivers_length dist s0 mops
  have h5 : availableCount s0 = s0.drivers.length := by
    rw [availableCount, List.filter_eq_self.mpr (fun x hx => by simp [h0.1 x hx])]
  omega

/-- Witness for the amended C1 at a concrete fleet and concrete operation
sequences. -/
theorem busy_equals_scheduled_witness :
    busyCount (run dist0 fleetOneState fleetOneOps)
        = scheduledCount (run dist0 fleetOneState fleetOneOps)
    ∧ (run dist0 fleetOneState
        [Op.matchReq 0 (pt 0) (pt 1), Op.matchReq 1 (pt 2) (pt 3)]).rides.length
        ≤ availableCount fleetOneState :=
  busy_equals_scheduled_and_match_only_bound dist0 fleetOneState fleetOneOps
    [Op.matchReq 0 (pt 0) (pt 1), Op.matchReq 1 (pt 2) (pt 3)]
    ⟨by decide, rfl, by decide, by decide, by decide⟩ (by decide)

/-- C1, as stated, is false: from one idle vehicle, match–cancel–match
creates two trips in total, exceeding the initial number of idle vehicles,
because the cancellation released the vehicle for a second claim. -/
theorem trips_created_can_exceed_initial_fleet :
    InitState fleetOneState
    ∧ availableCount fleetOneState = 1
    ∧ (run dist0 fleetOneState fleetOneOps).rides.length = 2 := by
  exact ⟨⟨by decide, rfl, by decide, by decide, by decide⟩, by decide, by decide⟩

/-! ## C2: the deviation gate -/

/-- C2 (amended): given a candidate trip passing the capacity gate, the match
scan admits the new request iff the current path with the new pickup and
dropoff appended is at most `sumDirect * (1 + MAX_DEVIATION_PERCENT)`, where
`sumDirect` is the direct distance of the new request plus the direct
distances of every currently attached request — CANCELLED ones included. -/
theorem deviation_gate_amended (dist : Point → Point → ℚ) (s : DB)
    (p d : Point) (r : Ride)
    (hcap : (bookingsOf s r.id).length < driverCapacity s r.driverId) :
    (rideMatchable dist s p d r = true ↔
      calculatePathDistance dist (r.path ++ [p, d])
        ≤ (dist p d + ((bookingsOf s r.id).map fun b => dist b.pickup b.dropoff).sum)
          * (1 + MAX_DEVIATION_PERCENT)) := by
  rw [rideMatchable]
  simp only [if_neg (by omega : ¬ (bookingsOf s r.id).length ≥ driverCapacity s r.driverId)]
  rw [isPathValid]
  simp

/-- Witness for the amended C2 at the concrete trip with a CANCELLED
attached booking. -/
theorem deviation_gate_amended_witness :
    (rideMatchable dist0 detourState (pt 1) (pt 2)
        { id := 0, driverId := 0, status := RideStatus.SCHEDULED,
          path := [pt 0, pt 1] } = true ↔
      calculatePathDistance dist0 ([pt 0, pt 1] ++ [pt 1, pt 2])
        ≤ (dist0 (pt 1) (pt 2)
            + ((bookingsOf detourState 0).map fun b => dist0 b.pickup b.dropoff).sum)
          * (1 + MAX_DEVIATION_PERCENT)) :=
  deviation_gate_amended dist0 detourState (pt 1) (pt 2)
    { id := 0, driverId := 0, status := RideStatus.SCHEDULED, path := [pt 0, pt 1] }
    (by decide)

/-- C2, as stated, is false: the scan admits this trip — the CANCELLED
booking's direct distance 100 inflates `sumDirect` to 101, giving bound
151.5 against a new path length of 2 — yet the path exceeds 1.5 times the
sum of the direct distances of the new request and the non-cancelled
attached requests alone (bound 1.5 < 2), so the claimed "if and only if"
with cancelled requests contributing nothing fails at this input. -/
theorem cancelled_requests_inflate_sum_direct :
    findExistingRide dist0 detourState (pt 1) (pt 2)
        = some { id := 0, driverId := 0, status := RideStatus.SCHEDULED,
                 path := [pt 0, pt 1] }
    ∧ ¬(calculatePathDistance dist0 ([pt 0, pt 1] ++ [pt 1, pt 2])
        ≤ (dist0 (pt 1) (pt 2)
            + (((bookingsOf detourState 0).filter fun b =>
                  decide (b.status ≠ BookingStatus.CANCELLED)).map fun b =>
                  dist0 b.pickup b.dropoff).sum)
          * (1 + MAX_DEVIATION_PERCENT)) := by
  constructor
  · norm_num [findExistingRide, rideMatchable, bookingsOf, detourState, driverCapacity,
      findDriver, isPathValid, calculatePathDistance, dist0, pt, MAX_DEVIATION_PERCENT,
      MAX_SEATS]
  · norm_num [calculatePathDistance, bookingsOf, detourState, dist0, pt,
      MAX_DEVIATION_PERCENT]

/-! ## C3: the capacity gate -/

/-- C3 is violated by the code: a capacity-1 trip whose single attached
booking is CANCELLED has zero non-cancelled attached requests and passes the
deviation check for a degenerate new request, yet the scan rejects the trip:
`findExistingRide` compares `ride.bookings.length` (here 1, the CANCELLED row
included) with the capacity, not the active-booking count (here 0), although
`cancelBooking`'s own comment states the freed seat becomes matchable. -/
theorem capacity_gate_counts_cancelled_bookings :
    ((bookingsOf cancelSeatState 0).filter fun b =>
        decide (b.status ≠ BookingStatus.CANCELLED)).length = 0
    ∧ driverCapacity cancelSeatState 0 = 1
    ∧ isPathValid dist0
        { id := 0, driverId := 0, status := RideStatus.SCHEDULED, path := [] }
        (bookingsOf cancelSeatState 0) (pt 0) (pt 0) = true
    ∧ findExistingRide dist0 cancelSeatState (pt 0) (pt 0) = none := by
  refine ⟨by decide, by decide, ?_, ?_⟩
  · norm_num [isPathValid, bookingsOf, cancelSeatState, calculatePathDistance, dist0, pt,
      MAX_DEVIATION_PERCENT]
  · norm_num [findExistingRide, rideMatchable, bookingsOf, cancelSeatState, driverCapacity,
      findDriver, MAX_SEATS]

/-! ## C4: exclusivity of the conditional claim -/

theorem claim_zero_of_no_avail {drivers : List Driver} {vid : ℕ}
    (h : ∀ d ∈ drivers, ¬(d.id = vid ∧ d.status = DriverStatus.AVAILABLE)) :
    (claimDriver drivers vid).2 = 0 := by
  show (drivers.filter _).length = 0
  rw [List.length_eq_zero, List.filter_eq_nil_iff]
  intro a ha
  simpa using h a ha

theorem no_avail_of_claim_zero {drivers : List Driver} {vid : ℕ}
    (h : (claimDriver drivers vid).2 = 0) :
    ∀ d ∈ drivers, ¬(d.id = vid ∧ d.status = DriverStatus.AVAILABLE) := by
  have h' : (drivers.filter fun d =>
      decide (d.id = vid ∧ d.status = DriverStatus.AVAILABLE)) = [] :=
    List.length_eq_zero.mp h
  rw [List.filter_eq_nil_iff] at h'
  intro d hd
  simpa using h' d hd

/-- A claim reporting zero changed rows left the driver table untouched. -/
theorem claim_zero_fst {drivers : List Driver} {vid : ℕ}
    (h : (claimDriver drivers vid).2 = 0) :
    (claimDriver drivers vid).1 = drivers := by
  have hno := no_avail_of_claim_zero h
  show drivers.map _ = drivers
  rw [List.map_congr_left (fun d hd => if_neg (hno d hd))]
  simp

/-- After any claim, no driver row with the claimed id is AVAILABLE. -/
theorem claim_preserves_no_avail {drivers : List Driver} {vid : ℕ} :
    ∀ d' ∈ (claimDriver drivers vid).1,
      ¬(d'.id = vid ∧ d'.status = DriverStatus.AVAILABLE) := by
  intro d' hd'
  rcases List.mem_map.mp hd' with ⟨d0, _, rfl⟩
  by_cases h0 : d0.id = vid ∧ d0.status = DriverStatus.AVAILABLE
  · rw [if_pos h0]
    rintro ⟨_, hcontra⟩
    simp at hcontra
  · rw [if_neg h0]
    exact h0

theorem runClaims_all_zero {drivers : List Driver} {vid : ℕ}
    (h : ∀ d ∈ drivers, ¬(d.id = vid ∧ d.status = DriverStatus.AVAILABLE)) (n : ℕ) :
    ∀ k ∈ (runClaims drivers vid n).2, k = 0 := by
  induction n generalizing drivers with
  | zero => intro k hk; cases hk
  | succ m ih =>
    intro k hk
    simp only [runClaims] at hk
    rcases List.mem_cons.mp hk with rfl | hk'
    · exact claim_zero_of_no_avail h
    · exact ih claim_preserves_no_avail k hk'

/-- C4: of any number of interleaved one-shot conditional claims on a single
vehicle (each claim an indivisible `updateMany` against the shared driver
table), at most one claim observes a positive changed-row count; and any
claim observing zero changed rows has zero effect on the table. -/
theorem claim_exclusivity (drivers ds : List Driver) (vid n : ℕ)
    (h : (claimDriver ds vid).2 = 0) :
    ((runClaims drivers vid n).2.filter fun k => decide (0 < k)).length ≤ 1
    ∧ (claimDriver ds vid).1 = ds := by
  refine ⟨?_, claim_zero_fst h⟩
  cases n with
  | zero => simp [runClaims]
  | succ m =>
    simp only [runClaims]
    have htail : ((runClaims (claimDriver drivers vid).1 vid m).2.filter
        fun k => decide (0 < k)) = [] := by
      rw [List.filter_eq_nil_iff]
      intro k hk
      simp [runClaims_all_zero claim_preserves_no_avail m k hk]
    rw [List.filter_cons]
    by_cases hpos : 0 < (claimDriver drivers vid).2
    · rw [if_pos (by simpa using hpos), htail]
      simp
    · rw [if_neg (by simpa using hpos), htail]
      simp

/-- Witness for C4: three interleaved claims on one AVAILABLE vehicle, and a
zero-effect claim on a BUSY table. -/
theorem claim_exclusivity_witness :
    ((runClaims [{ id := 0, capacity := 4, status := DriverStatus.AVAILABLE }] 0 3).2.filter
        fun k => decide (0 < k)).length ≤ 1
    ∧ (claimDriver [{ id := 0, capacity := 4, status := DriverStatus.BUSY }] 0).1
        = [{ id := 0, capacity := 4, status := DriverStatus.BUSY }] :=
  claim_exclusivity [{ id := 0, capacity := 4, status := DriverStatus.AVAILABLE }]
    [{ id := 0, capacity := 4, status := DriverStatus.BUSY }] 0 3 (by decide)

/-! ## C5: cancellation release -/

/-- C5: cancelling a CONFIRMED request attached to a trip marks exactly that
booking CANCELLED; when no other non-cancelled request remains on the trip,
the same transaction also completes the trip and frees its vehicle, and
otherwise the ride table (statuses and paths) and the driver table are
returned exactly as they were (trip SCHEDULED, path unchanged, vehicle
BUSY). -/
theorem cancellation_release (s : DB) (bid : ℕ) (b : Booking) (rid : ℕ) (r : Ride)
    (hfb : s.bookings.find? (fun x => decide (x.id = bid)) = some b)
    (hst : b.status = BookingStatus.CONFIRMED)
    (hrid : b.rideId = some rid)
    (hfr : s.rides.find? (fun x => decide (x.id = rid)) = some r)
    (hd : s.drivers.any (fun x => decide (x.id = r.driverId)) = true) :
    cancelBooking s bid =
      (if activeOthers s r b = 0
       then ({ s with bookings := cancelRow s.bookings b.id,
                      rides := completeRide s.rides r.id,
                      drivers := freeDriver s.drivers r.driverId }, CancelResult.ok)
       else ({ s with bookings := cancelRow s.bookings b.id }, CancelResult.ok)) := by
  unfold cancelBooking
  split
  · rename_i hnone
    rw [hfb] at hnone
    cases hnone
  · rename_i b' hfb'
    rw [hfb] at hfb'
    have hbb : b' = b := (Option.some.inj hfb').symm
    subst hbb
    split
    · rename_i hc
      rw [hst] at hc
      cases hc
    · split
      · rename_i hbind
        rw [hrid] at hbind
        simp only [Option.some_bind] at hbind
        rw [hfr] at hbind
        cases hbind
      · rename_i r' hbind
        rw [hrid] at hbind
        simp only [Option.some_bind] at hbind
        rw [hfr] at hbind
        have hrr : r' = r := (Option.some.inj hbind).symm
        subst hrr
        split <;> rfl

/-- Witness for C5: cancelling the sole CONFIRMED request of a one-passenger
trip. -/
theorem cancellation_release_witness :
    cancelBooking soloTripState 0 =
      (if activeOthers soloTripState
            { id := 0, driverId := 0, status := RideStatus.SCHEDULED,
              path := [pt 0, pt 1] }
            { id := 0, userId := 0, pickup := pt 0, dropoff := pt 1, price := 0,
              status := BookingStatus.CONFIRMED, rideId := some 0 } = 0
       then ({ soloTripState with
                bookings := cancelRow soloTripState.bookings 0,
                rides := completeRide soloTripState.rides 0,
                drivers := freeDriver soloTripState.drivers 0 }, CancelResult.ok)
       else ({ soloTripState with
                bookings := cancelRow soloTripState.bookings 0 }, CancelResult.ok)) :=
  cancellation_release soloTripState 0
    { id := 0, userId := 0, pickup := pt 0, dropoff := pt 1, price := 0,
      status := BookingStatus.CONFIRMED, rideId := some 0 } 0
    { id := 0, driverId := 0, status := RideStatus.SCHEDULED, path := [pt 0, pt 1] }
    (by decide) rfl rfl (by decide) (by decide)

/-! ## C6: new trip creation -/

/-- C6: when no admissible existing trip is found, an AVAILABLE candidate
heads the candidate read (so its conditional claim succeeds) and the booking
row exists, `matchRide` claims that vehicle and, in one transaction, creates
exactly one new SCHEDULED trip with path `[pickup, dropoff]` referencing it
and marks the booking CONFIRMED referencing the new trip. -/
theorem new_ride_creation (dist : Point → Point → ℚ) (s : DB) (bid : ℕ)
    (p d : Point) (c : Driver) (rest : List Driver)
    (hf : findExistingRide dist s p d = none)
    (hc : readCandidates s = c :: rest)
    (hb : s.bookings.any (fun x => decide (x.id = bid)) = true) :
    matchRide dist s bid p d =
      ({ s with
          drivers := (claimDriver s.drivers c.id).1,
          rides := s.rides ++ [{ id := s.nextRideId, driverId := c.id,
                                 status := RideStatus.SCHEDULED, path := [p, d] }],
          bookings := confirmBooking s.bookings bid s.nextRideId,
          nextRideId := s.nextRideId + 1 },
       some { id := s.nextRideId, driverId := c.id, status := RideStatus.SCHEDULED,
              path := [p, d] }) := by
  have hcm : c ∈ s.drivers ∧ c.status = DriverStatus.AVAILABLE := by
    have h1 : c ∈ readCandidates s := by
      rw [hc]
      exact List.mem_cons_self _ _
    have h2 : c ∈ s.drivers.filter fun x => decide (x.status = DriverStatus.AVAILABLE) :=
      (List.take_sublist 5 _).subset h1
    rw [List.mem_filter] at h2
    exact ⟨h2.1, by simpa using h2.2⟩
  have hclaim : 0 < (claimDriver s.drivers c.id).2 := by
    show 0 < (s.drivers.filter _).length
    have h3 : c ∈ s.drivers.filter fun x =>
        decide (x.id = c.id ∧ x.status = DriverStatus.AVAILABLE) :=
      List.mem_filter.mpr ⟨hcm.1, by simp [hcm.2]⟩
    exact List.length_pos.mpr (List.ne_nil_of_mem h3)
  unfold matchRide
  split
  · rename_i r0 hf0
    rw [hf] at hf0
    cases hf0
  · show createNewRideLoop s (readCandidates s) bid p d = _
    rw [hc]
    simp only [createNewRideLoop]
    rw [if_pos hclaim]
    simp only [createRideTx, hb, if_true]

/-- Witness for C6 at the concrete one-vehicle fleet. -/
theorem new_ride_creation_witness :
    matchRide dist0 fleetOneState 0 (pt 0) (pt 1) =
      ({ fleetOneState with
          drivers := (claimDriver fleetOneState.drivers 0).1,
          rides := fleetOneState.rides ++
            [{ id := fleetOneState.nextRideId, driverId := 0,
               status := RideStatus.SCHEDULED, path := [pt 0, pt 1] }],
          bookings := confirmBooking fleetOneState.bookings 0 fleetOneState.nextRideId,
          nextRideId := fleetOneState.nextRideId + 1 },
       some { id := fleetOneState.nextRideId, driverId := 0,
              status := RideStatus.SCHEDULED, path := [pt 0, pt 1] }) :=
  new_ride_creation dist0 fleetOneState 0 (pt 0) (pt 1)
    { id := 0, capacity := 4, status := DriverStatus.AVAILABLE } []
    rfl rfl (by decide)

/-! ## C7: invalid cancellations are rejected without mutation -/

/-- C7: cancelling an unknown booking id reports not-found, and cancelling
an already-CANCELLED booking reports already-cancelled; in both cases no
trip, vehicle or request state is mutated (the returned state is exactly the
input state). -/
theorem cancel_invalid_rejected (s : DB) (bid : ℕ)
    (h : s.bookings.find? (fun x => decide (x.id = bid)) = none
      ∨ ∃ b, s.bookings.find? (fun x => decide (x.id = bid)) = some b
          ∧ b.status = BookingStatus.CANCELLED) :
    (cancelBooking s bid).1 = s
    ∧ (cancelBooking s bid).2 =
        (match s.bookings.find? (fun x => decide (x.id = bid)) with
         | none => CancelResult.notFound
         | some _ => CancelResult.alreadyCancelled) := by
  rcases h with hn | ⟨b, hfb, hc⟩
  · unfold cancelBooking
    rw [hn]
    exact ⟨rfl, rfl⟩
  · unfold cancelBooking
    split
    · rename_i hnone
      rw [hfb] at hnone
      cases hnone
    · rename_i b' hfb'
      rw [hfb] at hfb'
      have hbb : b' = b := (Option.some.inj hfb').symm
      subst hbb
      split
      · exact ⟨rfl, rfl⟩
      · rename_i hcn
        exact absurd hc hcn

/-- Witness for C7: cancelling an unknown id on the concrete fleet. -/
theorem cancel_invalid_rejected_witness :
    (cancelBooking fleetOneState 99).1 = fleetOneState
    ∧ (cancelBooking fleetOneState 99).2 =
        (match fleetOneState.bookings.find? (fun x => decide (x.id = 99)) with
         | none => CancelResult.notFound
         | some _ => CancelResult.alreadyCancelled) :=
  cancel_invalid_rejected fleetOneState 99 (Or.inl (by decide))

/-! ## C8: the bounded allocator scan -/

/-- The claim loop returns allocation failure, with the state unchanged,
when every read candidate's conditional claim reports zero changed rows. -/
theorem loop_all_fail {s : DB} (bid : ℕ) (p d : Point) :
    ∀ cs : List Driver, (∀ x ∈ cs, (claimDriver s.drivers x.id).2 = 0) →
      createNewRideLoop s cs bid p d = (s, none) := by
  intro cs
  induction cs with
  | nil => intro _; rfl
  | cons c rest ih =>
    intro hall
    simp only [createNewRideLoop]
    rw [if_neg (by have := hall c (List.mem_cons_self _ _); omega)]
    exact ih fun x hx => hall x (List.mem_cons_of_mem _ hx)

/-- The claim loop skips exactly the candidates whose claim reports zero
changed rows. -/
theorem loop_skips_failures {s : DB} (bid : ℕ) (p d : Point) :
    ∀ pre : List Driver, (∀ x ∈ pre, (claimDriver s.drivers x.id).2 = 0) →
      ∀ tail, createNewRideLoop s (pre ++ tail) bid p d
        = createNewRideLoop s tail bid p d := by
  intro pre
  induction pre with
  | nil => intro _ tail; rfl
  | cons c rest ih =>
    intro hall tail
    rw [List.cons_append]
    simp only [createNewRideLoop]
    rw [if_neg (by have := hall c (List.mem_cons_self _ _); omega)]
    exact ih (fun x hx => hall x (List.mem_cons_of_mem _ hx)) tail

/-- C8: the allocator reads at most five candidates, all AVAILABLE at read
time; the loop stops at the first candidate whose conditional transition
reports a change and uses that vehicle for the new trip; and when every
candidate's transition reports zero changed rows (or none was read), it
reports allocation failure with the whole state — in particular the
request's status — unchanged. -/
theorem allocator_bounded_first_success (s : DB) (cs pre post : List Driver)
    (c : Driver) (bid : ℕ) (p d : Point)
    (hall : ∀ x ∈ cs, (claimDriver s.drivers x.id).2 = 0)
    (hpre : ∀ x ∈ pre, (claimDriver s.drivers x.id).2 = 0)
    (hcl : 0 < (claimDriver s.drivers c.id).2)
    (hb : s.bookings.any (fun x => decide (x.id = bid)) = true) :
    (readCandidates s).length ≤ 5
    ∧ ((readCandidates s).all fun x => decide (x.status = DriverStatus.AVAILABLE)) = true
    ∧ createNewRideLoop s cs bid p d = (s, none)
    ∧ createNewRideLoop s (pre ++ c :: post) bid p d =
        ({ s with
            drivers := (claimDriver s.drivers c.id).1,
            rides := s.rides ++ [{ id := s.nextRideId, driverId := c.id,
                                   status := RideStatus.SCHEDULED, path := [p, d] }],
            bookings := confirmBooking s.bookings bid s.nextRideId,
            nextRideId := s.nextRideId + 1 },
         some { id := s.nextRideId, driverId := c.id,
                status := RideStatus.SCHEDULED, path := [p, d] }) := by
  refine ⟨List.length_take_le 5 _, ?_, loop_all_fail bid p d cs hall, ?_⟩
  · rw [List.all_eq_true]
    intro x hx
    have h2 : x ∈ s.drivers.filter fun y => decide (y.status = DriverStatus.AVAILABLE) :=
      (List.take_sublist 5 _).subset hx
    exact (List.mem_filter.mp h2).2
  · rw [loop_skips_failures bid p d pre hpre (c :: post)]
    simp only [createNewRideLoop]
    rw [if_pos hcl]
    simp only [createRideTx, hb, if_true]

/-- Witness for C8 at a fleet with one BUSY and one AVAILABLE vehicle: the
stale candidate list `[vehicle 0]` (BUSY by the time of the claim) is
exhausted without effect, and the scan over `[vehicle 0, vehicle 1]` claims
vehicle 1. -/
theorem allocator_bounded_first_success_witness :
    (readCandidates mixedFleetState).length ≤ 5
    ∧ ((readCandidates mixedFleetState).all fun x =>
        decide (x.status = DriverStatus.AVAILABLE)) = true
    ∧ createNewRideLoop mixedFleetState
        [{ id := 0, capacity := 4, status := DriverStatus.BUSY }] 0 (pt 0) (pt 1)
        = (mixedFleetState, none)
    ∧ createNewRideLoop mixedFleetState
        ([{ id := 0, capacity := 4, status := DriverStatus.BUSY }] ++
          { id := 1, capacity := 4, status := DriverStatus.AVAILABLE } :: []) 0 (pt 0) (pt 1) =
        ({ mixedFleetState with
            drivers := (claimDriver mixedFleetState.drivers 1).1,
            rides := mixedFleetState.rides ++
              [{ id := mixedFleetState.nextRideId, driverId := 1,
                 status := RideStatus.SCHEDULED, path := [pt 0, pt 1] }],
            bookings := confirmBooking mixedFleetState.bookings 0
              mixedFleetState.nextRideId,
            nextRideId := mixedFleetState.nextRideId + 1 },
         some { id := mixedFleetState.nextRideId, driverId := 1,
                status := RideStatus.SCHEDULED, path := [pt 0, pt 1] }) :=
  allocator_bounded_first_success mixedFleetState
    [{ id := 0, capacity := 4, status := DriverStatus.BUSY }]
    [{ id := 0, capacity := 4, status := DriverStatus.BUSY }] []
    { id := 1, capacity := 4, status := DriverStatus.AVAILABLE } 0 (pt 0) (pt 1)
    (by decide) (by decide) (by decide) (by decide)

/-! ## C10: cancelling an unattached PENDING request is a pure status flip -/

/-- C10: cancelling a PENDING request that references no trip changes only
that booking row's status to CANCELLED; the ride table (every trip's status
and path), the driver table, and every other booking are returned exactly
as they were. -/
theorem cancel_pending_frame (s : DB) (bid : ℕ) (b : Booking)
    (hfb : s.bookings.find? (fun x => decide (x.id = bid)) = some b)
    (hp : b.status = BookingStatus.PENDING)
    (hnr : b.rideId = none) :
    cancelBooking s bid =
      ({ s with bookings := cancelRow s.bookings b.id }, CancelResult.ok) := by
  unfold cancelBooking
  split
  · rename_i hnone
    rw [hfb] at hnone
    cases hnone
  · rename_i b' hfb'
    rw [hfb] at hfb'
    have hbb : b' = b := (Option.some.inj hfb').symm
    subst hbb
    split
    · rename_i hc
      rw [hp] at hc
      cases hc
    · split
      · rfl
      · rename_i r' hbind
        rw [hnr] at hbind
        simp at hbind

/-- Witness for C10: cancelling the first PENDING booking of the concrete
fleet. -/
theorem cancel_pending_frame_witness :
    cancelBooking fleetOneState 0 =
      ({ fleetOneState with bookings := cancelRow fleetOneState.bookings 0 },
       CancelResult.ok) :=
  cancel_pending_frame fleetOneState 0
    { id := 0, userId := 0, pickup := pt 0, dropoff := pt 1, price := 0,
      status := BookingStatus.PENDING, rideId := none }
    (by decide) rfl rfl

/-! ## C9: coordinate validation -/

/-- The validation condition of `createBooking`, characterised: the pickup
object, the dropoff object, `pickup.lat` or `dropoff.lat` is absent or
falsy. -/
theorem invalidCoords_iff (pickup dropoff : Option Point) :
    invalidCoords pickup dropoff = true ↔
      (pickup = none ∨ dropoff = none
        ∨ (∃ q, pickup = some q ∧ numFalsy q.lat = true)
        ∨ (∃ q, dropoff = some q ∧ numFalsy q.lat = true)) := by
  cases pickup with
  | none => simp [invalidCoords]
  | some p =>
    cases dropoff with
    | none => simp [invalidCoords]
    | some q => simp [invalidCoords]

/-- `createBooking` returns the invalid-coordinates rejection with the state
untouched exactly when the validation condition holds. -/
theorem createBooking_invalid_iff (dist : Point → Point → ℚ) (s : DB) (userId : ℕ)
    (pickup dropoff : Option Point) :
    createBooking dist s userId pickup dropoff = (s, CreateResult.invalidCoords)
      ↔ invalidCoords pickup dropoff = true := by
  unfold createBooking
  by_cases h : invalidCoords pickup dropoff = true
  · rw [if_pos h]
    simp [h]
  · rw [if_neg h]
    apply iff_of_false ?_ h
    cases pickup with
    | none => simp [invalidCoords] at h
    | some p =>
      cases dropoff with
      | none => simp [invalidCoords] at h
      | some q =>
        intro hcontra
        dsimp only at hcontra
        split at hcontra
        · simp at hcontra
        · simp at hcontra

/-- C9: `createBooking` rejects with the invalid-coordinates error — before
any state mutation, the returned state being exactly the input state —
precisely when the pickup object, the dropoff object, `pickup.lat` or
`dropoff.lat` is absent or falsy.  Consequently a pickup on the equator
(latitude 0, a falsy number) is rejected as malformed, while longitudes are
never inspected: a missing longitude passes validation. -/
theorem coordinate_validation_characterization (dist : Point → Point → ℚ)
    (s : DB) (userId : ℕ) (pickup dropoff : Option Point) :
    (createBooking dist s userId pickup dropoff = (s, CreateResult.invalidCoords)
      ↔ (pickup = none ∨ dropoff = none
          ∨ (∃ q, pickup = some q ∧ numFalsy q.lat = true)
          ∨ (∃ q, dropoff = some q ∧ numFalsy q.lat = true)))
    ∧ createBooking dist s userId (some { lat := some 0, lng := some 7 })
        (some { lat := some 3, lng := some 4 }) = (s, CreateResult.invalidCoords)
    ∧ (createBooking dist s userId (some { lat := some 1, lng := none })
        (some { lat := some 2, lng := none })).2 ≠ CreateResult.invalidCoords := by
  refine ⟨(createBooking_invalid_iff dist s userId pickup dropoff).trans
    (invalidCoords_iff pickup dropoff), ?_, ?_⟩
  · exact (createBooking_invalid_iff dist s userId _ _).mpr
      (by norm_num [invalidCoords, numFalsy])
  · unfold createBooking
    rw [if_neg (by norm_num [invalidCoords, numFalsy])]
    dsimp only
    split
    · simp
    · simp

end AirportPooling
